import Mathlib

/-!
Verification development for the Wplace-TelemetryServer repository.

The definitions below are a shallow embedding of the server's data model and
operations, translated from `src/server.js`, `src/database.js` and the
iterative snapshots under `src/unnamed/` (in particular the `aggregateTotals`
aggregator and cron schedule found in `src/unnamed/part_002`).

Conventions of the embedding:

* SQLite tables are modelled as Lean lists of structure values; the table's
  `PRIMARY KEY` uniqueness shows up as a `Nodup` hypothesis on the key column
  where a theorem needs it.
* JavaScript timestamps (`Date.now()`, `lastSeen`, window bounds) are `Int`
  (milliseconds since the epoch).
* Nullable SQL columns and optional JS fields are `Option String`; JavaScript
  truthiness of such a value (`if (row.version) ...`) additionally treats the
  empty string as falsy, which `truthyStr` captures.
* A JavaScript plain object used as a counter (`totals[k] = (totals[k]||0)+1`)
  is an insertion-ordered association list `List (String × Nat)`; `bump`
  performs the JS update (existing key keeps its position, a new key is
  appended), and `JSON.stringify` of such an object is `jsonStringify`.
-/

/-- A row of the `heartbeats` table (`src/database.js`): `uuid` is the primary
key, `version`/`browser`/`os` are nullable TEXT columns, `lastSeen` is the
epoch-millisecond timestamp of the last heartbeat. -/
structure Heartbeat where
  uuid : String
  version : Option String
  browser : Option String
  os : Option String
  lastSeen : Int
deriving DecidableEq, Repr

/-- A row of one of the rollup tables `totalsHourly` / `totalsDaily` /
`totalsWeekly` / `totalsMonthly` / `totalsYearly` (`src/unnamed/part_000`):
the window-start primary key, the `onlineUsers` count, the three serialized
JSON distribution TEXT columns, and the `lastSeen` column holding the window
end. -/
structure RollupRow where
  windowStart : Int
  onlineUsers : Nat
  version : String
  browser : String
  os : String
  lastSeen : Int
deriving DecidableEq, Repr

/-- The projection produced by `SELECT version, browser, os FROM ...` inside
`aggregateTotals` (`src/unnamed/part_002`). -/
structure Sel where
  version : Option String
  browser : Option String
  os : Option String
deriving DecidableEq, Repr

/-- JavaScript truthiness of a nullable string column: `null` and the empty
string are falsy, any other string is truthy. -/
def truthyStr : Option String → Option String
  | none => none
  | some s => if s = "" then none else some s

/-- The JS counter update `totals[k] = (totals[k] || 0) + 1` on an
insertion-ordered object: an existing key keeps its position and its count is
incremented; a new key is appended with count 1. -/
def bump : List (String × Nat) → String → List (String × Nat)
  | [], k => [(k, 1)]
  | (k0, v) :: rest, k =>
    if k0 = k then (k0, v + 1) :: rest else (k0, v) :: bump rest k

/-- One iteration of the frequency-counting loop of `aggregateTotals`
(`src/unnamed/part_002`): `if (row.field) totals[row.field] =
(totals[row.field] || 0) + 1`. -/
def freqStep (f : Sel → Option String) (m : List (String × Nat)) (r : Sel) :
    List (String × Nat) :=
  match truthyStr (f r) with
  | some s => bump m s
  | none => m

/-- The frequency-counting loop of `aggregateTotals`
(`src/unnamed/part_002`): for each selected row, if the projected field is
truthy, bump its counter. -/
def freqOf (f : Sel → Option String) (rows : List Sel) : List (String × Nat) :=
  rows.foldl (freqStep f) []

/-- Sum of the counts stored in a JS counter object. -/
def sumValues (m : List (String × Nat)) : Nat :=
  (m.map (fun p => p.2)).sum

/-- `JSON.stringify` of an insertion-ordered counter object, e.g.
`\x7b"1.0.0":2,"1.1.0":1\x7d`. -/
def jsonStringify (m : List (String × Nat)) : String :=
  "\x7b" ++ String.intercalate ","
    (m.map (fun p => "\"" ++ p.1 ++ "\":" ++ toString p.2)) ++ "\x7d"

/-- The `WHERE lastSeen >= startTime AND lastSeen < endTime` range predicate
used by `aggregateTotals` for both the source `SELECT` and the source sweep
`DELETE`. -/
def inWindow (startTime endTime t : Int) : Bool :=
  decide (startTime ≤ t) && decide (t < endTime)

/-- The source query of `aggregateTotals`: `SELECT version, browser, os FROM
sourceTable WHERE lastSeen >= startTime AND lastSeen < endTime`.  The function
is generic in the source table's row type, mirroring the string-templated
table name in the JS code; the four projections are the four columns every
source table provides. -/
def selectRows {α : Type} (getVersion getBrowser getOs : α → Option String)
    (getLastSeen : α → Int) (src : List α) (startTime endTime : Int) :
    List Sel :=
  (src.filter (fun r => inWindow startTime endTime (getLastSeen r))).map
    (fun r => ⟨getVersion r, getBrowser r, getOs r⟩)

/-- The `versionTotals` object computed by the counting loop. -/
def versionTotalsOf (rows : List Sel) : List (String × Nat) :=
  freqOf (fun r => r.version) rows

/-- The `browserTotals` object computed by the counting loop. -/
def browserTotalsOf (rows : List Sel) : List (String × Nat) :=
  freqOf (fun r => r.browser) rows

/-- The `osTotals` object computed by the counting loop. -/
def osTotalsOf (rows : List Sel) : List (String × Nat) :=
  freqOf (fun r => r.os) rows

/-- The rollup row assembled by `aggregateTotals` and passed to the target
`INSERT ... ON CONFLICT ... DO UPDATE`: key `startTime`, `onlineUsers =
rows.length`, the three serialized distributions, and `lastSeen = endTime`. -/
def computeRollup (rows : List Sel) (startTime endTime : Int) : RollupRow :=
  { windowStart := startTime
    onlineUsers := rows.length
    version := jsonStringify (versionTotalsOf rows)
    browser := jsonStringify (browserTotalsOf rows)
    os := jsonStringify (osTotalsOf rows)
    lastSeen := endTime }

/-- The target-table upsert of `aggregateTotals`: `INSERT ... VALUES ... ON
CONFLICT(intervalStartCol) DO UPDATE SET ...`.  If a row with the same
window-start key exists it is overwritten in place, otherwise the new row is
appended. -/
def upsertRollup (tgt : List RollupRow) (newRow : RollupRow) :
    List RollupRow :=
  if tgt.any (fun r => r.windowStart == newRow.windowStart) then
    tgt.map (fun r =>
      if r.windowStart = newRow.windowStart then newRow else r)
  else
    tgt ++ [newRow]

/-- The subquery of the rolling-window eviction in `aggregateTotals`:
`SELECT key FROM targetTable ORDER BY key ASC LIMIT count - maxRows` — the
`count - maxRows` smallest window-start keys. -/
def doomedKeys (tgt : List RollupRow) (n : Nat) : List Int :=
  (List.insertionSort (fun a b => a ≤ b)
    (tgt.map (fun r => r.windowStart))).take (tgt.length - n)

/-- The rolling-window eviction of `aggregateTotals`: when `maxRows` is given
and positive and the table holds more than `maxRows` rows, delete the rows
whose window-start key is among the `count - maxRows` smallest keys
(`DELETE ... WHERE key IN (SELECT key ... ORDER BY key ASC LIMIT ?)`). -/
def evictOldest (tgt : List RollupRow) (maxRows : Option Nat) :
    List RollupRow :=
  match maxRows with
  | none => tgt
  | some n =>
    if 0 < n then
      if n < tgt.length then
        tgt.filter (fun r => decide (r.windowStart ∉ doomedKeys tgt n))
      else tgt
    else tgt

/-- The generic aggregator `aggregateTotals(sourceTable, targetTable,
startTime, endTime, intervalStartCol, maxRows, wipeSource)` from
`src/unnamed/part_002`: select the source rows in the window, build the counts
and the rollup row, upsert it into the target table, apply the rolling-window
eviction, and, when `wipeSource` is set, delete the aggregated source rows.
Returns the new target table and the new source table. -/
def aggregateTotals {α : Type} (getVersion getBrowser getOs : α → Option String)
    (getLastSeen : α → Int) (src : List α) (tgt : List RollupRow)
    (startTime endTime : Int) (maxRows : Option Nat) (wipeSource : Bool) :
    List RollupRow × List α :=
  let rows := selectRows getVersion getBrowser getOs getLastSeen src
    startTime endTime
  let newRow := computeRollup rows startTime endTime
  let tgt1 := upsertRollup tgt newRow
  let tgt2 := evictOldest tgt1 maxRows
  let src1 :=
    if wipeSource then
      src.filter (fun r => !inWindow startTime endTime (getLastSeen r))
    else src
  (tgt2, src1)

/-- `SELECT ... WHERE key = k` on a rollup table. -/
def lookupRollup (tgt : List RollupRow) (k : Int) : Option RollupRow :=
  tgt.find? (fun r => r.windowStart == k)

/-- The hourly cron job of `src/unnamed/part_002`:
`aggregateTotals('heartbeats', 'totalsHourly', now - 3600000, now,
'hourStart', 24, true)` — 24-row rolling retention, wipe the source. -/
def runHourlyJob (now : Int) (heartbeats : List Heartbeat)
    (totalsHourly : List RollupRow) : List RollupRow × List Heartbeat :=
  aggregateTotals (fun h => h.version) (fun h => h.browser) (fun h => h.os)
    (fun h => h.lastSeen) heartbeats totalsHourly
    (now - 60 * 60 * 1000) now (some 24) true

/-- The daily cron job: `aggregateTotals('totalsHourly', 'totalsDaily',
now - 86400000, now, 'dayStart', 7, false)` — the source table is itself a
rollup table, so the selected `version`/`browser`/`os` columns are the whole
serialized JSON distribution strings. -/
def runDailyJob (now : Int) (totalsHourly totalsDaily : List RollupRow) :
    List RollupRow × List RollupRow :=
  aggregateTotals (fun r => some r.version) (fun r => some r.browser)
    (fun r => some r.os) (fun r => r.lastSeen) totalsHourly totalsDaily
    (now - 24 * 60 * 60 * 1000) now (some 7) false

/-- The success-path semantics of the upsert statement of `src/server.js`:
`INSERT INTO heartbeats (uuid, version, browser, os, lastSeen) VALUES ... ON
CONFLICT(uuid) DO UPDATE SET version = excluded.version, ...` — the row for an
existing `uuid` is overwritten in place, a new `uuid` is inserted. -/
def upsertHeartbeat (store : List Heartbeat) (task : Heartbeat) :
    List Heartbeat :=
  if store.any (fun r => r.uuid == task.uuid) then
    store.map (fun r => if r.uuid = task.uuid then task else r)
  else
    store ++ [task]

/-- The `CHECK` column constraints of the `heartbeats` table
(`src/database.js`): every TEXT column carries `CHECK (length(col) <= 100)`.
A NULL column passes its CHECK (in SQLite `length(NULL) <= 100` is NULL,
which does not fail the constraint). -/
def heartbeatCheck (t : Heartbeat) : Bool :=
  decide (t.uuid.length ≤ 100) &&
    (match t.version with
     | none => true
     | some s => decide (s.length ≤ 100)) &&
    (match t.browser with
     | none => true
     | some s => decide (s.length ≤ 100)) &&
    (match t.os with
     | none => true
     | some s => decide (s.length ≤ 100))

/-- One write of `processQueue` (`src/server.js` lines 76–80): `try \x7b
statement.run(task) \x7d catch ...` — the upsert succeeds when the task
satisfies the table's CHECK constraints; otherwise SQLite throws, the
exception is caught and logged, and the record is dropped, leaving the store
unchanged (never retried, never requeued). -/
def runStatement (store : List Heartbeat) (task : Heartbeat) :
    List Heartbeat :=
  if heartbeatCheck task then upsertHeartbeat store task else store

/-- Repeated `processQueue` steps of `src/server.js` until the write queue is
empty: each step shifts the first task off the queue and attempts the upsert
statement (dropping the task if the write throws), so the queue is drained in
FIFO order, one task at a time. -/
def drainQueue (store : List Heartbeat) (queue : List Heartbeat) :
    List Heartbeat :=
  queue.foldl runStatement store

/-- `SELECT * FROM heartbeats WHERE uuid = c`. -/
def lookupHeartbeat (store : List Heartbeat) (c : String) :
    Option Heartbeat :=
  store.find? (fun r => r.uuid == c)

/-- A JavaScript value as it can appear in a parsed JSON request-body field:
absent (`undefined`, which is also what destructuring a missing property
yields), a string, a number, or a boolean. -/
inductive JSVal where
  | undef
  | str (s : String)
  | num (n : Int)
  | boolean (b : Bool)
deriving DecidableEq, Repr

/-- The destructured request body
`const { uuid, version, browser, os } = request.body || {}` of the
`/heartbeat` handler in `src/server.js`. -/
structure ReqBody where
  uuid : JSVal
  version : JSVal
  browser : JSVal
  os : JSVal
deriving DecidableEq, Repr

/-- JavaScript truthiness of a `JSVal`. -/
def JSVal.truthy : JSVal → Bool
  | .undef => false
  | .str s => decide (s ≠ "")
  | .num n => decide (n ≠ 0)
  | .boolean b => b

/-- `typeof v === 'string'`. -/
def JSVal.isString : JSVal → Bool
  | .str _ => true
  | _ => false

/-- Outcome of evaluating the property access `v.length` in JavaScript:
on `undefined` it throws a `TypeError`; on a string it yields the length; on
a number or boolean the property is absent, yielding `undefined`. -/
inductive LengthAccess where
  | threw
  | value (n : Option Nat)
deriving DecidableEq, Repr

/-- The property access `v.length`. -/
def lengthProp : JSVal → LengthAccess
  | .undef => .threw
  | .str s => .value (some s.length)
  | .num _ => .value none
  | .boolean _ => .value none

/-- The JavaScript comparison `x > limit` where `x` may be `undefined`
(`undefined > n` is `false`). -/
def gtLimit : Option Nat → Nat → Bool
  | some n, lim => decide (lim < n)
  | none, _ => false

/-- `validator.escape`: HTML-escape the characters `&`, `<`, `>`, double
quote, apostrophe, slash, backslash and backtick. -/
def escapeChar (c : Char) : String :=
  if c = '&' then "&amp;"
  else if c = '<' then "&lt;"
  else if c = '>' then "&gt;"
  else if c = '"' then "&quot;"
  else if c = '\'' then "&#x27;"
  else if c = '/' then "&#x2F;"
  else if c = '\\' then "&#x5C;"
  else if c = '`' then "&#96;"
  else String.singleton c

/-- `validator.escape` applied to a whole string. -/
def escape (s : String) : String :=
  String.join (s.toList.map escapeChar)

/-- `v ? validator.escape(v) : null` for an optional field that has already
passed the handler's checks (a truthy non-string would have been rejected
earlier, so the non-string truthy arm is unreachable and mapped to `null`). -/
def sanitizeOpt (v : JSVal) : Option String :=
  if v.truthy then
    match v with
    | .str s => some (escape s)
    | _ => none
  else none

/-- Result of the `/heartbeat` handler of `src/server.js`: a 400 response
with an error message, a `\x7bstatus:'ok'\x7d` response together with the task
pushed onto the write queue, or an uncaught `TypeError` thrown inside the
handler (surfaced by fastify as a 500 response, with nothing enqueued). -/
inductive HandlerResult where
  | badRequest (msg : String)
  | ok (task : Heartbeat)
  | typeError
deriving DecidableEq, Repr

/-- The validation chain and enqueue of the `/heartbeat` handler in
`src/server.js` (lines 277–303), statement by statement:
`if (!uuid || typeof uuid !== 'string') return 400`,
`if (uuid.length > inputCharLimit) return 400`, then for each optional field
`if (field && typeof field !== 'string') return 400` followed by the
unconditional `if (field.length > inputCharLimit) return 400`, then sanitize
and push `\x7buuid, version, browser, os, lastSeen: now\x7d` onto the queue
and return `\x7bstatus:'ok'\x7d`. -/
def heartbeatHandler (body : ReqBody) (inputCharLimit : Nat) (now : Int) :
    HandlerResult :=
  if !body.uuid.truthy || !body.uuid.isString then
    .badRequest "Invalid UUID"
  else
    match lengthProp body.uuid with
    | .threw => .typeError
    | .value uuidLen =>
      if gtLimit uuidLen inputCharLimit then .badRequest "UUID too long"
      else if body.version.truthy && !body.version.isString then
        .badRequest "Invalid version"
      else
        match lengthProp body.version with
        | .threw => .typeError
        | .value versionLen =>
          if gtLimit versionLen inputCharLimit then
            .badRequest "Version too long"
          else if body.browser.truthy && !body.browser.isString then
            .badRequest "Invalid browser"
          else
            match lengthProp body.browser with
            | .threw => .typeError
            | .value browserLen =>
              if gtLimit browserLen inputCharLimit then
                .badRequest "Browser too long"
              else if body.os.truthy && !body.os.isString then
                .badRequest "Invalid OS"
              else
                match lengthProp body.os with
                | .threw => .typeError
                | .value osLen =>
                  if gtLimit osLen inputCharLimit then
                    .badRequest "OS too long"
                  else
                    .ok
                      { uuid :=
                          match body.uuid with
                          | .str s => escape s
                          | _ => ""
                        version := sanitizeOpt body.version
                        browser := sanitizeOpt body.browser
                        os := sanitizeOpt body.os
                        lastSeen := now }

/-- One hundred `&` characters: a field value that passes the handler's
pre-escape length check (length 100) but whose HTML-escaped form
(`&amp;` repeated) is 500 characters. -/
def hundredAmpersands : String :=
  String.mk (List.replicate 100 '&')

/-- A sanitized heartbeat task from client `"c"` whose fields all satisfy the
store's CHECK length constraints. -/
def firstTask : Heartbeat :=
  ⟨"c", some "1.0.0", some "Chrome", some "Windows", 1⟩

/-- The sanitized task the handler enqueues for a later heartbeat from client
`"c"` whose `version` is `hundredAmpersands`: escaping expands the field to
500 characters, which violates the store's `CHECK (length(version) <= 100)`
constraint. -/
def overflowTask : Heartbeat :=
  ⟨"c", some (escape hundredAmpersands), some "Chrome", some "Windows", 2⟩

/-- Modelled from the spec: the rate limiter / ban state machine of
section 4.2 (the `@fastify/rate-limit` plugin registered in `src/server.js`
is an external dependency whose implementation is not part of the
repository).  Per tracked identifier it holds the timestamps of the requests
seen in the current sliding window and, once the ban threshold of repeated
violations is reached, a ban-until timestamp. -/
structure LimiterState where
  requests : List Int
  strikes : Nat
  bannedUntil : Int
deriving DecidableEq, Repr

/-- The rate-limit window: the expected delivery interval, default 30
minutes (`timeWindow` in `src/server.js`). -/
def limiterWindowMs : Int := 30 * 60 * 1000

/-- Modelled from the spec: the ban duration is the delivery interval minus a
small safety margin (one minute), per section 4.2 and the
`ban: intervalDelivery - 1` comment in `src/unnamed/part_002`. -/
def limiterBanMs : Int := 29 * 60 * 1000

/-- The request ceiling per window: `max: 3` in `src/server.js`. -/
def limiterMax : Nat := 3

/-- The number of over-ceiling violations before a ban: `ban: 3` in
`src/server.js`. -/
def limiterBanThreshold : Nat := 3

/-- Modelled from the spec: one request arriving at time `t`.  A banned
identifier is rejected outright until the ban elapses.  Otherwise the request
is counted in the sliding window; if the count within the window now
*exceeds* the ceiling the request is rejected (and enough repeated violations
start a ban), else it is accepted.  Returns the new state and whether the
request was accepted. -/
def rateLimitStep (st : LimiterState) (t : Int) : LimiterState × Bool :=
  if t < st.bannedUntil then
    (st, false)
  else
    let recent := (st.requests.filter (fun u => decide (t - limiterWindowMs < u))) ++ [t]
    if limiterMax < recent.length then
      let strikes := st.strikes + 1
      if limiterBanThreshold ≤ strikes then
        ({ requests := recent, strikes := 0, bannedUntil := t + limiterBanMs },
          false)
      else
        ({ requests := recent, strikes := strikes, bannedUntil := st.bannedUntil },
          false)
    else
      ({ requests := recent, strikes := st.strikes, bannedUntil := st.bannedUntil },
        true)

/-- Run the limiter over a sequence of request times from one identifier,
returning the acceptance decision for each request in order. -/
def rateLimitRun (times : List Int) : List Bool :=
  (times.foldl
    (fun acc t =>
      let r := rateLimitStep acc.1 t
      (r.1, acc.2 ++ [r.2]))
    (({ requests := [], strikes := 0, bannedUntil := 0 } : LimiterState), ([] : List Bool))).2

/-- The whole database of `src/database.js`: the `heartbeats` table and the
five rollup tables. -/
structure DBState where
  heartbeats : List Heartbeat
  totalsHourly : List RollupRow
  totalsDaily : List RollupRow
  totalsWeekly : List RollupRow
  totalsMonthly : List RollupRow
  totalsYearly : List RollupRow
deriving DecidableEq, Repr

/-- The cron jobs actually scheduled in `src/server.js` (lines 227–260): the
daily, weekly, monthly and yearly aggregations.  The hourly job (lines
218–224) is commented out there and therefore never scheduled. -/
inductive ServerJob where
  | daily
  | weekly
  | monthly
  | yearly
deriving DecidableEq, Repr

/-- The source rollup table a `src/server.js` cron job reads. -/
def ServerJob.sourceOf (j : ServerJob) (st : DBState) : List RollupRow :=
  match j with
  | .daily => st.totalsHourly
  | .weekly => st.totalsDaily
  | .monthly => st.totalsWeekly
  | .yearly => st.totalsMonthly

/-- The start of the aggregation window each `src/server.js` cron job
computes from the firing time `now` (`Date.now()`): daily and weekly subtract
a fixed span; the monthly and weekly jobs use calendar arithmetic
(`setMonth(getMonth()-1)` / `setFullYear(getFullYear()-1)`), which this
embedding abstracts as subtracting the number of milliseconds the calendar
step covered at the firing instant. -/
def ServerJob.startTimeOf (j : ServerJob) (now monthSpanMs yearSpanMs : Int) :
    Int :=
  match j with
  | .daily => now - 24 * 60 * 60 * 1000
  | .weekly => now - 7 * 24 * 60 * 60 * 1000
  | .monthly => now - monthSpanMs
  | .yearly => now - yearSpanMs

/-- One firing of a `src/server.js` cron job at wall-clock time `now`: run
`aggregateTotals` from the job's source rollup table into its target rollup
table with the retention cap from the schedule and `wipeSource = false`, and
write the results back into the database state.  No scheduled job reads or
writes the `heartbeats` table. -/
def runServerJob (j : ServerJob) (now monthSpanMs yearSpanMs : Int)
    (st : DBState) : DBState :=
  let startTime := j.startTimeOf now monthSpanMs yearSpanMs
  match j with
  | .daily =>
    let r := runDailyJob now st.totalsHourly st.totalsDaily
    { st with totalsDaily := r.1, totalsHourly := r.2 }
  | .weekly =>
    let r := aggregateTotals (fun x => some x.version) (fun x => some x.browser)
      (fun x => some x.os) (fun x => x.lastSeen) st.totalsDaily st.totalsWeekly
      startTime now (some 4) false
    { st with totalsWeekly := r.1, totalsDaily := r.2 }
  | .monthly =>
    let r := aggregateTotals (fun x => some x.version) (fun x => some x.browser)
      (fun x => some x.os) (fun x => x.lastSeen) st.totalsWeekly st.totalsMonthly
      startTime now (some 12) false
    { st with totalsMonthly := r.1, totalsWeekly := r.2 }
  | .yearly =>
    let r := aggregateTotals (fun x => some x.version) (fun x => some x.browser)
      (fun x => some x.os) (fun x => x.lastSeen) st.totalsMonthly st.totalsYearly
      startTime now (some 25) false
    { st with totalsYearly := r.1, totalsMonthly := r.2 }

/-- Run a sequence of `src/server.js` cron-job firings, each with its firing
time and calendar spans. -/
def runServerJobs (firings : List (ServerJob × Int × Int × Int))
    (st : DBState) : DBState :=
  firings.foldl
    (fun s f => runServerJob f.1 f.2.1 f.2.2.1 f.2.2.2 s) st

/-- The `startTime` computed by the hourly job of `src/unnamed/part_002`:
`Date.now()` at firing minus one hour. -/
def hourlyJobStartTime (now : Int) : Int :=
  now - 60 * 60 * 1000

/-! ## Helper lemmas about the counting loop -/

theorem sumValues_bump (m : List (String × Nat)) (k : String) :
    sumValues (bump m k) = sumValues m + 1 := by
  induction m with
  | nil => rfl
  | cons p rest ih =>
    obtain ⟨k0, v⟩ := p
    by_cases h : k0 = k
    · simp [bump, h, sumValues]
      omega
    · simp [bump, h, sumValues] at ih ⊢
      omega

theorem sumValues_freq_fold (f : Sel → Option String) (rows : List Sel)
    (init : List (String × Nat)) :
    sumValues (rows.foldl (freqStep f) init) =
      sumValues init + rows.countP (fun r => (truthyStr (f r)).isSome) := by
  induction rows generalizing init with
  | nil => simp
  | cons r rest ih =>
    rw [List.foldl_cons, ih, List.countP_cons]
    unfold freqStep
    cases htr : truthyStr (f r) with
    | none => simp [htr]
    | some s => simp [htr, sumValues_bump]; omega

theorem sumValues_freqOf (f : Sel → Option String) (rows : List Sel) :
    sumValues (freqOf f rows) =
      rows.countP (fun r => (truthyStr (f r)).isSome) := by
  rw [freqOf, sumValues_freq_fold]
  simp [sumValues]

/-- C4: for every rollup row produced by an `aggregateTotals` run at any
granularity (any source table and projections), the sum of the counts in each
of the three frequency distributions is at most the row's `onlineUsers`; a
source row whose field is null (or empty) contributes to `onlineUsers` but
not to that field's distribution. -/
theorem rollup_totals_le_onlineUsers {α : Type}
    (getVersion getBrowser getOs : α → Option String) (getLastSeen : α → Int)
    (src : List α) (startTime endTime : Int) :
    sumValues (versionTotalsOf
        (selectRows getVersion getBrowser getOs getLastSeen src startTime endTime)) ≤
      (computeRollup
        (selectRows getVersion getBrowser getOs getLastSeen src startTime endTime)
        startTime endTime).onlineUsers ∧
    sumValues (browserTotalsOf
        (selectRows getVersion getBrowser getOs getLastSeen src startTime endTime)) ≤
      (computeRollup
        (selectRows getVersion getBrowser getOs getLastSeen src startTime endTime)
        startTime endTime).onlineUsers ∧
    sumValues (osTotalsOf
        (selectRows getVersion getBrowser getOs getLastSeen src startTime endTime)) ≤
      (computeRollup
        (selectRows getVersion getBrowser getOs getLastSeen src startTime endTime)
        startTime endTime).onlineUsers := by
  refine ⟨?_, ?_, ?_⟩ <;>
    simp only [computeRollup, versionTotalsOf, browserTotalsOf, osTotalsOf,
      sumValues_freqOf] <;>
    exact List.countP_le_length _

/-- C2: after a run of the hourly aggregation job (which is invoked with
`wipeSource = true`), no heartbeat row whose `lastSeen` lies in the swept
window `[now - 1h, now)` remains in the `heartbeats` table. -/
theorem hourly_sweep_clears_window (now : Int) (hb : List Heartbeat)
    (th : List RollupRow) (r : Heartbeat)
    (hr : r ∈ (runHourlyJob now hb th).2) :
    inWindow (now - 60 * 60 * 1000) now r.lastSeen = false := by
  simp only [runHourlyJob, aggregateTotals, List.mem_filter,
    Bool.not_eq_true', if_pos] at hr
  exact hr.2

/-- Witness for C2 at a concrete input: a heartbeat with `lastSeen = -5`
survives the sweep of window `[0, 3600000)` and indeed lies outside it. -/
theorem hourly_sweep_clears_window_witness :
    (⟨"u", none, none, none, -5⟩ : Heartbeat) ∈
        (runHourlyJob 3600000
          [⟨"u", none, none, none, -5⟩, ⟨"v", some "1.0.0", none, none, 10⟩]
          []).2 ∧
      inWindow (3600000 - 60 * 60 * 1000) 3600000 (-5) = false :=
  ⟨by decide,
    hourly_sweep_clears_window 3600000
      [⟨"u", none, none, none, -5⟩, ⟨"v", some "1.0.0", none, none, 10⟩] []
      ⟨"u", none, none, none, -5⟩ (by decide)⟩

/-- C7: evaluating the `/heartbeat` handler of `src/server.js` on a request
with a valid `uuid` and all optional fields absent does not return
`\x7bstatus:'ok'\x7d`: the unconditional `version.length` access throws a
`TypeError` (surfaced as a 500 server error, with nothing enqueued), because
the length checks on the optional fields are not guarded by their presence. -/
theorem valid_request_without_optionals_throws :
    heartbeatHandler ⟨JSVal.str "abc", JSVal.undef, JSVal.undef, JSVal.undef⟩
        100 0 = HandlerResult.typeError := by
  decide

/-- C9 counterexample: three requests from one identifier inside a single
30-minute window are all accepted (`max: 3` admits three requests and rejects
from the fourth on), so the third request is not rejected as the claim
states. -/
theorem third_request_in_window_accepted :
    rateLimitRun [0, 60000, 120000] = [true, true, true] ∧
      rateLimitRun [0, 60000, 120000] ≠ [true, true, false] := by
  decide

/-- C9 amended: the first three requests inside one window are accepted, the
fourth is rejected with the rate-limit signal, and a later request sent after
the window and ban period have elapsed is accepted again. -/
theorem rate_limit_admits_three_rejects_fourth :
    rateLimitRun [0, 1, 2, 3, 1800004] = [true, true, true, false, true] := by
  decide

/-- C8 counterexample: the hourly job fired at `now = 3600500` (500 ms past
the top of the hour, as `Date.now()` at a cron firing generally is) writes a
rollup row keyed `windowStart = 500`, which is not a boundary-aligned top of
hour. -/
theorem hourly_window_start_not_aligned :
    ((runHourlyJob 3600500 [] []).1.map (fun r => r.windowStart)) = [500] ∧
      ¬((500 : Int) % 3600000 = 0) := by
  decide

/-- C8 amended: every aggregation job — hourly, daily, weekly, monthly,
yearly — computes `endTime = Date.now()` at the moment its cron fires and
`startTime = endTime` minus its nominal span (one hour, day or week in
milliseconds; one calendar month or year via `setMonth` / `setFullYear`,
whose millisecond extent at the firing instant the embedding receives as
`monthSpanMs` / `yearSpanMs`), and that `startTime` is the `windowStart` key
of the rollup row the run writes.  The key of a fixed-span job is
boundary-aligned exactly when the firing time is itself boundary-aligned,
and the monthly/yearly key equals the previous calendar boundary exactly
when the job fires precisely at its boundary — alignment is never computed,
only inherited from the firing time. -/
theorem job_window_start_is_firing_time_minus_span
    (now monthSpanMs yearSpanMs boundary : Int) (rows : List Sel) :
    (hourlyJobStartTime now = now - 60 * 60 * 1000 ∧
      ServerJob.startTimeOf ServerJob.daily now monthSpanMs yearSpanMs =
        now - 24 * 60 * 60 * 1000 ∧
      ServerJob.startTimeOf ServerJob.weekly now monthSpanMs yearSpanMs =
        now - 7 * 24 * 60 * 60 * 1000 ∧
      ServerJob.startTimeOf ServerJob.monthly now monthSpanMs yearSpanMs =
        now - monthSpanMs ∧
      ServerJob.startTimeOf ServerJob.yearly now monthSpanMs yearSpanMs =
        now - yearSpanMs) ∧
    (∀ startTime endTime : Int,
      (computeRollup rows startTime endTime).windowStart = startTime) ∧
    ((hourlyJobStartTime now % 3600000 = 0 ↔ now % 3600000 = 0) ∧
      (ServerJob.startTimeOf ServerJob.daily now monthSpanMs yearSpanMs %
          86400000 = 0 ↔ now % 86400000 = 0) ∧
      (ServerJob.startTimeOf ServerJob.weekly now monthSpanMs yearSpanMs %
          604800000 = 0 ↔ now % 604800000 = 0)) ∧
    ((ServerJob.startTimeOf ServerJob.monthly now monthSpanMs yearSpanMs =
        boundary - monthSpanMs ↔ now = boundary) ∧
      (ServerJob.startTimeOf ServerJob.yearly now monthSpanMs yearSpanMs =
        boundary - yearSpanMs ↔ now = boundary)) := by
  refine ⟨⟨rfl, rfl, rfl, rfl, rfl⟩, fun s e => rfl, ⟨?_, ?_, ?_⟩, ?_, ?_⟩
  · unfold hourlyJobStartTime
    omega
  · simp only [ServerJob.startTimeOf]
    omega
  · simp only [ServerJob.startTimeOf]
    omega
  · simp only [ServerJob.startTimeOf]
    omega
  · simp only [ServerJob.startTimeOf]
    omega

/-- Two concrete hourly rollup rows carrying the same serialized version
distribution string and `onlineUsers` 5 and 7, used as a source table in the
witness below. -/
def twoHourlyRows : List RollupRow :=
  [⟨0, 5, "\x7b\"1.0.0\":5\x7d", "\x7b\x7d", "\x7b\x7d", 10⟩,
   ⟨20, 7, "\x7b\"1.0.0\":5\x7d", "\x7b\x7d", "\x7b\x7d", 30⟩]

theorem upsertHeartbeat_same_key (s : List Heartbeat) (t : Heartbeat) :
    (∀ r ∈ upsertHeartbeat s t, r.uuid = t.uuid → r = t) ∧
      (∃ r ∈ upsertHeartbeat s t, r.uuid = t.uuid) := by
  unfold upsertHeartbeat
  by_cases hany : s.any (fun r => r.uuid == t.uuid)
  · rw [if_pos hany]
    constructor
    · intro r hr hru
      obtain ⟨a, _, rfl⟩ := List.mem_map.1 hr
      by_cases ha : a.uuid = t.uuid
      · simp [ha]
      · simp only [if_neg ha] at hru ⊢
        exact absurd hru ha
    · obtain ⟨a, ha, hae⟩ := List.any_eq_true.1 hany
      refine ⟨t, List.mem_map.2 ⟨a, ha, ?_⟩, rfl⟩
      rw [if_pos (by simpa using hae)]
  · rw [if_neg hany]
    constructor
    · intro r hr hru
      rcases List.mem_append.1 hr with h | h
      · exact absurd (List.any_eq_true.2 ⟨r, h, by simpa using hru⟩) hany
      · exact List.mem_singleton.1 h
    · exact ⟨t, List.mem_append.2 (Or.inr (by simp)), rfl⟩

theorem upsertHeartbeat_other_key (s : List Heartbeat) (t : Heartbeat)
    (c : String) (a : Heartbeat) (ht : t.uuid ≠ c)
    (hall : ∀ r ∈ s, r.uuid = c → r = a) (hex : ∃ r ∈ s, r.uuid = c) :
    (∀ r ∈ upsertHeartbeat s t, r.uuid = c → r = a) ∧
      (∃ r ∈ upsertHeartbeat s t, r.uuid = c) := by
  unfold upsertHeartbeat
  by_cases hany : s.any (fun r => r.uuid == t.uuid)
  · rw [if_pos hany]
    constructor
    · intro r hr hru
      obtain ⟨x, hx, rfl⟩ := List.mem_map.1 hr
      by_cases hxt : x.uuid = t.uuid
      · rw [if_pos hxt] at hru ⊢
        exact absurd hru ht
      · rw [if_neg hxt] at hru ⊢
        exact hall x hx hru
    · obtain ⟨w, hw, hwc⟩ := hex
      refine ⟨w, List.mem_map.2 ⟨w, hw, ?_⟩, hwc⟩
      rw [if_neg (fun hwt => ht (by rw [← hwt]; exact hwc))]
  · rw [if_neg hany]
    constructor
    · intro r hr hru
      rcases List.mem_append.1 hr with h | h
      · exact hall r h hru
      · exact absurd ((List.mem_singleton.1 h) ▸ hru) ht
    · obtain ⟨w, hw, hwc⟩ := hex
      exact ⟨w, List.mem_append.2 (Or.inl hw), hwc⟩

theorem runStatement_other_key (s : List Heartbeat) (t : Heartbeat)
    (c : String) (a : Heartbeat) (ht : t.uuid ≠ c)
    (hall : ∀ r ∈ s, r.uuid = c → r = a) (hex : ∃ r ∈ s, r.uuid = c) :
    (∀ r ∈ runStatement s t, r.uuid = c → r = a) ∧
      (∃ r ∈ runStatement s t, r.uuid = c) := by
  unfold runStatement
  by_cases hchk : heartbeatCheck t
  · rw [if_pos hchk]
    exact upsertHeartbeat_other_key s t c a ht hall hex
  · rw [if_neg hchk]
    exact ⟨hall, hex⟩

theorem drainQueue_other_keys (q : List Heartbeat) (c : String) (a : Heartbeat)
    (hq : ∀ x ∈ q, x.uuid ≠ c) (s : List Heartbeat)
    (hall : ∀ r ∈ s, r.uuid = c → r = a) (hex : ∃ r ∈ s, r.uuid = c) :
    (∀ r ∈ drainQueue s q, r.uuid = c → r = a) ∧
      (∃ r ∈ drainQueue s q, r.uuid = c) := by
  induction q generalizing s with
  | nil => exact ⟨hall, hex⟩
  | cons x rest ih =>
    have hx := hq x (List.mem_cons_self x rest)
    have hstep := runStatement_other_key s x c a hx hall hex
    exact ih (fun y hy => hq y (List.mem_cons_of_mem x hy))
      (runStatement s x) hstep.1 hstep.2

theorem lookupHeartbeat_of_unique (s : List Heartbeat) (c : String)
    (a : Heartbeat) (hall : ∀ r ∈ s, r.uuid = c → r = a)
    (hex : ∃ r ∈ s, r.uuid = c) :
    lookupHeartbeat s c = some a := by
  induction s with
  | nil => obtain ⟨r, hr, _⟩ := hex; exact absurd hr (List.not_mem_nil r)
  | cons b rest ih =>
    by_cases hb : b.uuid = c
    · have hba : b = a := hall b (List.mem_cons_self b rest) hb
      subst hba
      simp [lookupHeartbeat, List.find?_cons, hb]
    · rw [lookupHeartbeat, List.find?_cons]
      have hbeq : (b.uuid == c) = false := by simpa using hb
      simp only [hbeq, Bool.false_eq_true, if_false]
      refine ih (fun r hr => hall r (List.mem_cons_of_mem b hr)) ?_
      obtain ⟨r, hr, hrc⟩ := hex
      rcases List.mem_cons.1 hr with rfl | hr2
      · exact absurd hrc hb
      · exact ⟨r, hr2, hrc⟩

set_option maxRecDepth 4000 in
/-- C6 counterexample: a heartbeat whose `version` is one hundred `&`
characters passes the handler's validation (field lengths are checked before
HTML-escaping) and is enqueued, but its escaped `version` is 500 characters,
so `statement.run` violates the table's `CHECK (length(version) <= 100)`
constraint, the write is caught and dropped, and after the queue drains the
store still holds the earlier heartbeat's fields — last-write-wins fails for
this pair of valid heartbeats. -/
theorem escaped_overflow_breaks_last_write_wins :
    heartbeatHandler
        ⟨JSVal.str "c", JSVal.str hundredAmpersands, JSVal.str "Chrome",
          JSVal.str "Windows"⟩ 100 2 = HandlerResult.ok overflowTask ∧
      lookupHeartbeat (drainQueue [] [firstTask, overflowTask]) "c" =
        some firstTask ∧
      firstTask ≠ overflowTask := by
  decide

/-- C6 amended: the write queue is drained in FIFO order, one write at a
time; for two heartbeats from the same client, the later-enqueued one wins —
after the whole queue is drained, the stored row for that client is exactly
the later heartbeat (its `version`, `browser`, `os`, `lastSeen`) — provided
no heartbeat from the same client was enqueued after it and the later task
satisfies the store's CHECK length constraints (otherwise the write throws
and the record is dropped, leaving the previous row). -/
theorem queue_drain_last_write_wins (store q1 q2 q3 : List Heartbeat)
    (h1 h2 : Heartbeat) (c : String) (hc1 : h1.uuid = c) (hc2 : h2.uuid = c)
    (h3 : ∀ t ∈ q3, t.uuid ≠ c) (hchk : heartbeatCheck h2 = true) :
    lookupHeartbeat (drainQueue store (q1 ++ h1 :: (q2 ++ h2 :: q3))) c =
      some h2 := by
  have hsplit :
      drainQueue store (q1 ++ h1 :: (q2 ++ h2 :: q3)) =
        drainQueue
          (runStatement
            (drainQueue (runStatement (drainQueue store q1) h1) q2) h2)
          q3 := by
    simp [drainQueue, List.foldl_append]
  have hrs :
      runStatement
          (drainQueue (runStatement (drainQueue store q1) h1) q2) h2 =
        upsertHeartbeat
          (drainQueue (runStatement (drainQueue store q1) h1) q2) h2 := by
    rw [runStatement, if_pos hchk]
  rw [hsplit, hrs]
  have hup := upsertHeartbeat_same_key
    (drainQueue (runStatement (drainQueue store q1) h1) q2) h2
  rw [hc2] at hup
  have hdr := drainQueue_other_keys q3 c h2 h3 _ hup.1 hup.2
  exact lookupHeartbeat_of_unique _ c h2 hdr.1 hdr.2

/-- Witness for C6 (amended) at concrete inputs: two heartbeats from client
`"c"`, the later one within the CHECK limits, drained in order leave the
second one stored. -/
theorem queue_drain_last_write_wins_witness :
    (⟨"c", some "1.0.0", some "Chrome", some "Windows", 1⟩ : Heartbeat).uuid
        = "c" ∧
      (⟨"c", some "2.0.0", some "Firefox", some "Linux", 2⟩ : Heartbeat).uuid
        = "c" ∧
      heartbeatCheck ⟨"c", some "2.0.0", some "Firefox", some "Linux", 2⟩
        = true ∧
      lookupHeartbeat
        (drainQueue []
          [⟨"c", some "1.0.0", some "Chrome", some "Windows", 1⟩,
           ⟨"c", some "2.0.0", some "Firefox", some "Linux", 2⟩]) "c" =
        some ⟨"c", some "2.0.0", some "Firefox", some "Linux", 2⟩ :=
  ⟨rfl, rfl, by decide,
    queue_drain_last_write_wins [] [] [] []
      ⟨"c", some "1.0.0", some "Chrome", some "Windows", 1⟩
      ⟨"c", some "2.0.0", some "Firefox", some "Linux", 2⟩ "c" rfl rfl
      (by simp) (by decide)⟩

theorem runServerJob_heartbeats (j : ServerJob) (now monthSpanMs yearSpanMs : Int)
    (st : DBState) :
    (runServerJob j now monthSpanMs yearSpanMs st).heartbeats = st.heartbeats := by
  cases j <;> rfl

/-- C1: no cron job scheduled in `src/server.js` ever reads or deletes rows
of the `heartbeats` table (the hourly sweep is commented out there), so after
any sequence of scheduled-job firings every heartbeat row — whatever its
`lastSeen` — is still present: the code does not enforce the one-hour
retention bound. -/
theorem scheduled_jobs_never_delete_heartbeats
    (firings : List (ServerJob × Int × Int × Int)) (st : DBState) :
    (runServerJobs firings st).heartbeats = st.heartbeats := by
  induction firings generalizing st with
  | nil => rfl
  | cons f rest ih =>
    show (runServerJobs rest (runServerJob f.1 f.2.1 f.2.2.1 f.2.2.2 st)).heartbeats
        = st.heartbeats
    rw [ih, runServerJob_heartbeats]

/-! ## Helper lemmas about the rolling-window eviction and the upsert -/

theorem list_map_self {α : Type} (l : List α) (f : α → α)
    (h : ∀ a ∈ l, f a = a) : l.map f = l := by
  induction l with
  | nil => rfl
  | cons a rest ih =>
    rw [List.map_cons, h a (List.mem_cons_self a rest),
      ih (fun x hx => h x (List.mem_cons_of_mem a hx))]

theorem evict_subset (l : List RollupRow) (m : Option Nat) :
    ∀ r ∈ evictOldest l m, r ∈ l := by
  intro r hr
  cases m with
  | none => exact hr
  | some n =>
    simp only [evictOldest] at hr
    by_cases h0 : 0 < n
    · rw [if_pos h0] at hr
      by_cases h1 : n < l.length
      · rw [if_pos h1] at hr
        exact (List.mem_filter.1 hr).1
      · rwa [if_neg h1] at hr
    · rwa [if_neg h0] at hr

theorem evict_of_le (l : List RollupRow) (n : Nat) (h : l.length ≤ n) :
    evictOldest l (some n) = l := by
  simp only [evictOldest]
  by_cases h0 : 0 < n
  · rw [if_pos h0, if_neg (by omega)]
  · rw [if_neg h0]

theorem evict_of_nonpos (l : List RollupRow) (n : Nat) (h : ¬ 0 < n) :
    evictOldest l (some n) = l := by
  simp only [evictOldest]
  rw [if_neg h]

theorem doomedKeys_length (l : List RollupRow) (n : Nat) (h : n < l.length) :
    (doomedKeys l n).length = l.length - n := by
  have hperm := List.perm_insertionSort (fun a b : Int => a ≤ b)
    (l.map (fun r => r.windowStart))
  have hlen := hperm.length_eq
  rw [doomedKeys, List.length_take]
  rw [hlen, List.length_map]
  omega

theorem countP_doomed_ge (l : List RollupRow) (n : Nat) (h : n < l.length) :
    l.length - n ≤
      List.countP (fun r => decide (r.windowStart ∈ doomedKeys l n)) l := by
  have hperm := List.perm_insertionSort (fun a b : Int => a ≤ b)
    (l.map (fun r => r.windowStart))
  have hcm : List.countP (fun r => decide (r.windowStart ∈ doomedKeys l n)) l
      = List.countP (fun x => decide (x ∈ doomedKeys l n))
          (l.map (fun r => r.windowStart)) := by
    rw [List.countP_map]; rfl
  rw [hcm, ← hperm.countP_eq]
  have hsplit := List.take_append_drop (l.length - n)
    (List.insertionSort (fun a b : Int => a ≤ b)
      (l.map (fun r => r.windowStart)))
  have hc2 : List.countP (fun x => decide (x ∈ doomedKeys l n))
      (List.insertionSort (fun a b : Int => a ≤ b)
        (l.map (fun r => r.windowStart)))
      = List.countP (fun x => decide (x ∈ doomedKeys l n))
          (doomedKeys l n ++
            (List.insertionSort (fun a b : Int => a ≤ b)
              (l.map (fun r => r.windowStart))).drop (l.length - n)) := by
    rw [doomedKeys]
    rw [hsplit]
  rw [hc2, List.countP_append]
  have hd : List.countP (fun x => decide (x ∈ doomedKeys l n))
      (doomedKeys l n) = (doomedKeys l n).length :=
    List.countP_eq_length.2 (fun a ha => by simpa using ha)
  rw [hd, doomedKeys_length l n h]
  omega

theorem evict_length_le (l : List RollupRow) (n : Nat) (hn : 0 < n) :
    (evictOldest l (some n)).length ≤ n := by
  by_cases h1 : n < l.length
  · simp only [evictOldest]
    rw [if_pos hn, if_pos h1, ← List.countP_eq_length_filter]
    have hge := countP_doomed_ge l n h1
    have hsum := List.length_eq_countP_add_countP
      (fun r => decide (r.windowStart ∈ doomedKeys l n)) l
    have hcongr : List.countP
        (fun r => decide (¬ (decide (r.windowStart ∈ doomedKeys l n)) = true)) l
        = List.countP (fun r => decide (r.windowStart ∉ doomedKeys l n)) l := by
      apply List.countP_congr
      intro r _
      by_cases hr : r.windowStart ∈ doomedKeys l n <;> simp [hr]
    omega
  · simp only [evictOldest]
    rw [if_pos hn, if_neg h1]
    omega

theorem countP_doomed_eq (l : List RollupRow) (n : Nat) (h : n < l.length)
    (hnd : (l.map (fun r => r.windowStart)).Nodup) :
    List.countP (fun r => decide (r.windowStart ∈ doomedKeys l n)) l =
      l.length - n := by
  have hperm := List.perm_insertionSort (fun a b : Int => a ≤ b)
    (l.map (fun r => r.windowStart))
  have hsrtnd : (List.insertionSort (fun a b : Int => a ≤ b)
      (l.map (fun r => r.windowStart))).Nodup := hperm.nodup_iff.2 hnd
  have hdnd : (doomedKeys l n).Nodup :=
    List.Nodup.sublist (List.take_sublist _ _) hsrtnd
  have hcm : List.countP (fun r => decide (r.windowStart ∈ doomedKeys l n)) l
      = List.countP (fun x => decide (x ∈ doomedKeys l n))
          (l.map (fun r => r.windowStart)) := by
    rw [List.countP_map]; rfl
  have hmemiff : ∀ x,
      x ∈ (l.map (fun r => r.windowStart)).filter
        (fun x => decide (x ∈ doomedKeys l n)) ↔ x ∈ doomedKeys l n := by
    intro x
    constructor
    · intro hx
      simpa using (List.mem_filter.1 hx).2
    · intro hx
      refine List.mem_filter.2 ⟨?_, by simpa using hx⟩
      exact hperm.mem_iff.1 (List.mem_of_mem_take hx)
  have hfnd : ((l.map (fun r => r.windowStart)).filter
      (fun x => decide (x ∈ doomedKeys l n))).Nodup :=
    hnd.filter _
  have hlenq := ((List.perm_ext_iff_of_nodup hfnd hdnd).2 hmemiff).length_eq
  rw [hcm, List.countP_eq_length_filter, hlenq, doomedKeys_length l n h]

/-- C5: the retention eviction step with cap `n`, applied to a rollup table
with distinct window-start keys holding more than `n` rows (as after the
insert that pushed it over the cap), leaves exactly `n` rows, all of them
rows of the original table, and every evicted row has a strictly smaller
`windowStart` than every surviving row — eviction is strictly by
window-start age. -/
theorem retention_keeps_newest (tgt : List RollupRow) (n : Nat)
    (hnd : (tgt.map (fun r => r.windowStart)).Nodup) (hn : 0 < n)
    (hlen : n < tgt.length) :
    (evictOldest tgt (some n)).length = n ∧
      (∀ r ∈ evictOldest tgt (some n), r ∈ tgt) ∧
      (∀ r ∈ evictOldest tgt (some n), ∀ d ∈ tgt,
        d ∉ evictOldest tgt (some n) → d.windowStart < r.windowStart) := by
  have hform : evictOldest tgt (some n) =
      tgt.filter (fun r => decide (r.windowStart ∉ doomedKeys tgt n)) := by
    simp only [evictOldest]
    rw [if_pos hn, if_pos hlen]
  refine ⟨?_, fun r hr => evict_subset tgt (some n) r hr, ?_⟩
  · rw [hform, ← List.countP_eq_length_filter]
    have hsum := List.length_eq_countP_add_countP
      (fun r => decide (r.windowStart ∈ doomedKeys tgt n)) tgt
    have hcongr : List.countP
        (fun r => decide (¬ (decide (r.windowStart ∈ doomedKeys tgt n)) = true))
          tgt
        = List.countP (fun r => decide (r.windowStart ∉ doomedKeys tgt n)) tgt := by
      apply List.countP_congr
      intro r _
      by_cases hr : r.windowStart ∈ doomedKeys tgt n <;> simp [hr]
    have heq := countP_doomed_eq tgt n hlen hnd
    omega
  · intro r hr d hd hdn
    rw [hform] at hr hdn
    have hrmem := List.mem_filter.1 hr
    have hrnot : r.windowStart ∉ doomedKeys tgt n := by
      simpa using hrmem.2
    have hdin : d.windowStart ∈ doomedKeys tgt n := by
      by_contra hcon
      exact hdn (List.mem_filter.2 ⟨hd, by simpa using hcon⟩)
    have hperm := List.perm_insertionSort (fun a b : Int => a ≤ b)
      (tgt.map (fun r => r.windowStart))
    have hrsrt : r.windowStart ∈ List.insertionSort (fun a b : Int => a ≤ b)
        (tgt.map (fun r => r.windowStart)) :=
      hperm.mem_iff.2 (List.mem_map_of_mem (fun r => r.windowStart) hrmem.1)
    have hrdrop : r.windowStart ∈
        (List.insertionSort (fun a b : Int => a ≤ b)
          (tgt.map (fun r => r.windowStart))).drop (tgt.length - n) := by
      have hsp := List.take_append_drop (tgt.length - n)
        (List.insertionSort (fun a b : Int => a ≤ b)
          (tgt.map (fun r => r.windowStart)))
      rw [← hsp] at hrsrt
      rcases List.mem_append.1 hrsrt with htake | hdrop
      · exact absurd htake hrnot
      · exact hdrop
    have hdin2 : d.windowStart ∈
        (List.insertionSort (fun a b : Int => a ≤ b)
          (tgt.map (fun r => r.windowStart))).take (tgt.length - n) := hdin
    have hle : d.windowStart ≤ r.windowStart :=
      (List.sorted_insertionSort (fun a b : Int => a ≤ b)
        (tgt.map (fun r => r.windowStart))).rel_of_mem_take_of_mem_drop
        hdin2 hrdrop
    have hne : d.windowStart ≠ r.windowStart := by
      intro he
      exact hrnot (he ▸ hdin)
    exact lt_of_le_of_ne hle hne

/-- Three concrete rollup rows with distinct window-start keys, used as a
target table in the witness below. -/
def threeRollupRows : List RollupRow :=
  [⟨10, 1, "\x7b\x7d", "\x7b\x7d", "\x7b\x7d", 11⟩,
   ⟨5, 2, "\x7b\x7d", "\x7b\x7d", "\x7b\x7d", 6⟩,
   ⟨20, 3, "\x7b\x7d", "\x7b\x7d", "\x7b\x7d", 21⟩]

/-- Witness for C5 at a concrete input: capping three rows at two keeps the
two rows with the greatest window starts. -/
theorem retention_keeps_newest_witness :
    (threeRollupRows.map (fun r => r.windowStart)).Nodup ∧ 0 < 2 ∧
      2 < threeRollupRows.length ∧
      ((evictOldest threeRollupRows (some 2)).length = 2 ∧
        (∀ r ∈ evictOldest threeRollupRows (some 2), r ∈ threeRollupRows) ∧
        (∀ r ∈ evictOldest threeRollupRows (some 2), ∀ d ∈ threeRollupRows,
          d ∉ evictOldest threeRollupRows (some 2) →
            d.windowStart < r.windowStart)) :=
  ⟨by decide, by decide, by decide,
    retention_keeps_newest threeRollupRows 2 (by decide) (by decide) (by decide)⟩

theorem upsertRollup_all_key (tgt : List RollupRow) (w : RollupRow) :
    ∀ r ∈ upsertRollup tgt w, r.windowStart = w.windowStart → r = w := by
  intro r hr hk
  unfold upsertRollup at hr
  by_cases hany : tgt.any (fun x => x.windowStart == w.windowStart)
  · rw [if_pos hany] at hr
    obtain ⟨a, _, rfl⟩ := List.mem_map.1 hr
    by_cases ha : a.windowStart = w.windowStart
    · simp [ha]
    · rw [if_neg ha] at hk ⊢
      exact absurd hk ha
  · rw [if_neg hany] at hr
    rcases List.mem_append.1 hr with h | h
    · exact absurd (List.any_eq_true.2 ⟨r, h, by simpa using hk⟩) hany
    · exact List.mem_singleton.1 h

theorem upsertRollup_of_covered (tgt : List RollupRow) (w : RollupRow)
    (hall : ∀ r ∈ tgt, r.windowStart = w.windowStart → r = w)
    (hex : ∃ r ∈ tgt, r.windowStart = w.windowStart) :
    upsertRollup tgt w = tgt := by
  unfold upsertRollup
  obtain ⟨a, ha, hak⟩ := hex
  rw [if_pos (List.any_eq_true.2 ⟨a, ha, by simpa using hak⟩)]
  apply list_map_self
  intro x hx
  by_cases hxk : x.windowStart = w.windowStart
  · rw [if_pos hxk]
    exact (hall x hx hxk).symm
  · rw [if_neg hxk]

theorem evict_again (t1 : List RollupRow) (m : Option Nat)
    (tgt0 : List RollupRow) (h : t1 = evictOldest tgt0 m) :
    evictOldest t1 m = t1 := by
  cases m with
  | none => rfl
  | some n =>
    by_cases hn : 0 < n
    · apply evict_of_le
      rw [h]
      exact evict_length_le tgt0 n hn
    · exact evict_of_nonpos t1 n hn

/-- C3 counterexample: the hourly job (which runs with `wipeSource = true`)
is not idempotent — after a first run over window `[0, 3600000)` has
aggregated one heartbeat and swept it, a second run over the same window
recomputes from the now-empty source and overwrites the rollup row with zero
counts, so the row for that window differs between the two runs. -/
theorem rerun_after_sweep_differs :
    lookupRollup
        (runHourlyJob 3600000
          [⟨"u", some "1.0.0", some "Chrome", some "Windows", 3599000⟩] []).1
        0 ≠
      lookupRollup
        (runHourlyJob 3600000
          (runHourlyJob 3600000
            [⟨"u", some "1.0.0", some "Chrome", some "Windows", 3599000⟩] []).2
          (runHourlyJob 3600000
            [⟨"u", some "1.0.0", some "Chrome", some "Windows", 3599000⟩] []).1).1
        0 := by
  decide

/-- C3 amended: an aggregation run that keeps its source (`wipeSource =
false`, as the daily, weekly, monthly and yearly jobs are configured) is
idempotent: re-running the job for the same window over the run's output
tables overwrites the row for that boundary in place with identical content,
provided the row survived the run's retention eviction. -/
theorem rerun_without_sweep_identical {α : Type}
    (getVersion getBrowser getOs : α → Option String) (getLastSeen : α → Int)
    (src : List α) (tgt : List RollupRow) (startTime endTime : Int)
    (m : Option Nat)
    (hex : ∃ r ∈ (aggregateTotals getVersion getBrowser getOs getLastSeen src
        tgt startTime endTime m false).1, r.windowStart = startTime) :
    aggregateTotals getVersion getBrowser getOs getLastSeen
        (aggregateTotals getVersion getBrowser getOs getLastSeen src tgt
          startTime endTime m false).2
        (aggregateTotals getVersion getBrowser getOs getLastSeen src tgt
          startTime endTime m false).1
        startTime endTime m false =
      aggregateTotals getVersion getBrowser getOs getLastSeen src tgt
        startTime endTime m false := by
  have hrun1 : aggregateTotals getVersion getBrowser getOs getLastSeen src tgt
      startTime endTime m false =
      (evictOldest
        (upsertRollup tgt
          (computeRollup
            (selectRows getVersion getBrowser getOs getLastSeen src startTime
              endTime) startTime endTime)) m, src) := rfl
  rw [hrun1] at hex ⊢
  have hwkey : (computeRollup
      (selectRows getVersion getBrowser getOs getLastSeen src startTime
        endTime) startTime endTime).windowStart = startTime := rfl
  have hall : ∀ r ∈ evictOldest
      (upsertRollup tgt
        (computeRollup
          (selectRows getVersion getBrowser getOs getLastSeen src startTime
            endTime) startTime endTime)) m,
      r.windowStart =
        (computeRollup
          (selectRows getVersion getBrowser getOs getLastSeen src startTime
            endTime) startTime endTime).windowStart →
      r = computeRollup
        (selectRows getVersion getBrowser getOs getLastSeen src startTime
          endTime) startTime endTime :=
    fun r hr hk =>
      upsertRollup_all_key tgt _ r (evict_subset _ m r hr) hk
  have hex2 : ∃ r ∈ evictOldest
      (upsertRollup tgt
        (computeRollup
          (selectRows getVersion getBrowser getOs getLastSeen src startTime
            endTime) startTime endTime)) m,
      r.windowStart =
        (computeRollup
          (selectRows getVersion getBrowser getOs getLastSeen src startTime
            endTime) startTime endTime).windowStart := by
    obtain ⟨r, hr, hrk⟩ := hex
    exact ⟨r, hr, by rw [hrk, hwkey]⟩
  have hup := upsertRollup_of_covered _ _ hall hex2
  have hev := evict_again
    (evictOldest
      (upsertRollup tgt
        (computeRollup
          (selectRows getVersion getBrowser getOs getLastSeen src startTime
            endTime) startTime endTime)) m) m _ rfl
  show (evictOldest
      (upsertRollup
        (evictOldest
          (upsertRollup tgt
            (computeRollup
              (selectRows getVersion getBrowser getOs getLastSeen src
                startTime endTime) startTime endTime)) m)
        (computeRollup
          (selectRows getVersion getBrowser getOs getLastSeen src startTime
            endTime) startTime endTime)) m, src) =
    (evictOldest
      (upsertRollup tgt
        (computeRollup
          (selectRows getVersion getBrowser getOs getLastSeen src startTime
            endTime) startTime endTime)) m, src)
  rw [hup, hev]

/-- Witness for C3 amended at concrete inputs: a daily-style run with
`wipeSource = false` over one hourly rollup row, repeated, yields identical
tables. -/
theorem rerun_without_sweep_identical_witness :
    (∃ r ∈ (aggregateTotals (fun r : RollupRow => some r.version)
        (fun r => some r.browser) (fun r => some r.os) (fun r => r.lastSeen)
        twoHourlyRows [] 0 100 (some 7) false).1, r.windowStart = 0) ∧
      aggregateTotals (fun r : RollupRow => some r.version)
          (fun r => some r.browser) (fun r => some r.os) (fun r => r.lastSeen)
          (aggregateTotals (fun r : RollupRow => some r.version)
            (fun r => some r.browser) (fun r => some r.os)
            (fun r => r.lastSeen) twoHourlyRows [] 0 100 (some 7) false).2
          (aggregateTotals (fun r : RollupRow => some r.version)
            (fun r => some r.browser) (fun r => some r.os)
            (fun r => r.lastSeen) twoHourlyRows [] 0 100 (some 7) false).1
          0 100 (some 7) false =
        aggregateTotals (fun r : RollupRow => some r.version)
          (fun r => some r.browser) (fun r => some r.os) (fun r => r.lastSeen)
          twoHourlyRows [] 0 100 (some 7) false :=
  ⟨by decide,
    rerun_without_sweep_identical (fun r : RollupRow => some r.version)
      (fun r => some r.browser) (fun r => some r.os) (fun r => r.lastSeen)
      twoHourlyRows [] 0 100 (some 7) (by decide)⟩
